import Mathlib

/-!
Verification of the lldap-controller reconciliation engine against its
natural-language specification.

The definitions below are a shallow embedding of the Rust sources:
 - `src/lldap.rs` (directory client: `check_graphql_errors`, `update_user_groups`)
 - `src/resources/service_user.rs` (ServiceUser apply and cleanup paths,
   `new_secret`, `format_username`)
 - `src/resources/group.rs` (Group apply path)
 - `src/context.rs` (event kinds and their event types)

Effectful code is embedded by passing the result of every external call
(cluster API, directory HTTP) explicitly in an environment record, and by
returning, next to the outcome, the trace of directory calls made and the
trace of events successfully published.  Rust panics (`unwrap`/`expect`)
are modelled as a distinguished `panicked` outcome.
-/

/-- `cynic::GraphQlError` as used by the source: only `message` is inspected. -/
structure GraphQlError where
  message : String
deriving DecidableEq, Repr

/-- `lldap::Error` from `src/lldap.rs` (lines 18-28). -/
inductive LldapError where
  | cynic (msg : String)
  | reqwest (msg : String)
  | authentication (msg : String)
  | graphQl (e : GraphQlError)
deriving DecidableEq, Repr

/-- `cynic::GraphQlResponse<T>`: optional data and an optional error list. -/
structure GraphQlResponse (α : Type) where
  data : Option α
  errors : Option (List GraphQlError)
deriving DecidableEq, Repr

/-- Rust panic vs normal result: `panicked` models `unwrap`/`expect` failure. -/
inductive PanicOr (α : Type) where
  | panicked (msg : String)
  | ok (a : α)
deriving DecidableEq, Repr

/-- `check_graphql_errors` from `src/lldap.rs` lines 32-42: if the `errors`
array is present and non-empty, the first entry is returned as a `GraphQl`
error; otherwise `data.expect(...)` is returned (panicking when absent). -/
def check_graphql_errors {α : Type} (response : GraphQlResponse α) :
    PanicOr (Except LldapError α) :=
  match response.errors with
  | some (e :: _) => .ok (.error (.graphQl e))
  | _ =>
    match response.data with
    | some d => .ok (.ok d)
    | none => .panicked "Data should be valid if there are no error"

/-- Modelled from the spec (§3): a directory group `{id: int (assigned by
directory), displayName: string}`.  The generated `queries::Group` type is
not part of the sources under `src/`. -/
structure DirGroup where
  id : Int
  display_name : String
deriving DecidableEq, Repr

/-- Modelled from the spec (§3): a directory user
`{id: string, groups: set of {id: int, displayName: string}}`.  The
generated `queries::User` type is not part of the sources under `src/`. -/
structure DirUser where
  id : String
  groups : List DirGroup
deriving DecidableEq, Repr

/-- A directory call made by the client, recorded in traces. -/
inductive DirCall where
  | getUser (username : String)
  | createUser (username : String)
  | deleteUser (username : String)
  | getGroups
  | addUserToGroup (username : String) (group : Int)
  | removeUserFromGroup (username : String) (group : Int)
  | createGroup (name : String)
  | deleteGroup (id : Int)
  | updatePassword (username : String)
deriving DecidableEq, Repr

/-- Results of the external calls `update_user_groups` makes
(`src/lldap.rs` lines 182-217): one `get_groups` listing plus one result
per `remove_user_from_group` / `add_user_to_group` call. -/
structure UpdateGroupsEnv where
  getGroups : Except LldapError (List DirGroup)
  removeResult : Int → Except LldapError Unit
  addResult : Int → Except LldapError Unit

/-- The name-resolution step of `update_user_groups` (`src/lldap.rs` lines
186-194): each needed display name is looked up among the listed groups
with `find` and mapped to its id; names with no match are dropped by
`filter_map`. -/
def resolve_groups (all_groups : List DirGroup) (needed_groups : List String) : List Int :=
  needed_groups.filterMap fun needed_group =>
    (all_groups.find? fun group => group.display_name == needed_group).map fun group => group.id

/-- The removal loop of `update_user_groups` (`src/lldap.rs` lines 198-205):
issue `remove_user_from_group` for each listed id, stopping at the first
error (`?`). -/
def runRemoves (env : UpdateGroupsEnv) (username : String) :
    List Int → Option LldapError × List DirCall
  | [] => (none, [])
  | g :: gs =>
    match env.removeResult g with
    | .error e => (some e, [.removeUserFromGroup username g])
    | .ok _ =>
      let r := runRemoves env username gs
      (r.1, .removeUserFromGroup username g :: r.2)

/-- The addition loop of `update_user_groups` (`src/lldap.rs` lines 207-214):
issue `add_user_to_group` for each listed id, stopping at the first
error (`?`). -/
def runAdds (env : UpdateGroupsEnv) (username : String) :
    List Int → Option LldapError × List DirCall
  | [] => (none, [])
  | g :: gs =>
    match env.addResult g with
    | .error e => (some e, [.addUserToGroup username g])
    | .ok _ =>
      let r := runAdds env username gs
      (r.1, .addUserToGroup username g :: r.2)

/-- `update_user_groups` from `src/lldap.rs` lines 182-217: list all groups,
resolve the needed display names to ids (dropping unknown names), then
remove each current id not needed and add each needed id not current.
Returns the first error (if any) and the trace of directory calls. -/
def update_user_groups (env : UpdateGroupsEnv) (user : DirUser)
    (needed_groups : List String) : Option LldapError × List DirCall :=
  match env.getGroups with
  | .error e => (some e, [.getGroups])
  | .ok all_groups =>
    let needed := resolve_groups all_groups needed_groups
    let current := user.groups.map fun group => group.id
    let rres := runRemoves env user.id (current.filter fun group => !(needed.contains group))
    match rres.1 with
    | some e => (some e, .getGroups :: rres.2)
    | none =>
      let ares := runAdds env user.id (needed.filter fun group => !(current.contains group))
      (ares.1, .getGroups :: (rres.2 ++ ares.2))

/-- Modelled from the spec (§4.A): the effect of `addUserToGroup` /
`removeUserFromGroup` on one user's membership set.  Calls naming a
different user, and non-membership calls, leave the membership unchanged. -/
def applyDirCalls (username : String) (membership : List Int) :
    List DirCall → List Int
  | [] => membership
  | DirCall.removeUserFromGroup u g :: rest =>
    applyDirCalls username
      (if u == username then membership.filter fun x => !(x == g) else membership) rest
  | DirCall.addUserToGroup u g :: rest =>
    applyDirCalls username (if u == username then membership ++ [g] else membership) rest
  | _ :: rest => applyDirCalls username membership rest

theorem applyDirCalls_append (username : String) (m : List Int)
    (c1 c2 : List DirCall) :
    applyDirCalls username m (c1 ++ c2) =
      applyDirCalls username (applyDirCalls username m c1) c2 := by
  induction c1 generalizing m with
  | nil => rfl
  | cons c rest ih =>
    cases c <;> simp [applyDirCalls, ih]

theorem mem_applyDirCalls_removes (username : String) (m : List Int)
    (rs : List Int) (x : Int) :
    x ∈ applyDirCalls username m (rs.map (DirCall.removeUserFromGroup username)) ↔
      x ∈ m ∧ x ∉ rs := by
  induction rs generalizing m with
  | nil => simp [applyDirCalls]
  | cons r rest ih =>
    simp only [List.map_cons, applyDirCalls, beq_self_eq_true, if_true, ih, List.mem_filter,
      List.mem_cons, Bool.not_eq_eq_eq_not, Bool.not_true, beq_eq_false_iff_ne, ne_eq]
    tauto

theorem mem_applyDirCalls_adds (username : String) (m : List Int)
    (as : List Int) (x : Int) :
    x ∈ applyDirCalls username m (as.map (DirCall.addUserToGroup username)) ↔
      x ∈ m ∨ x ∈ as := by
  induction as generalizing m with
  | nil => simp [applyDirCalls]
  | cons a rest ih =>
    simp only [List.map_cons, applyDirCalls, beq_self_eq_true, if_true, ih, List.mem_append,
      List.mem_cons, List.mem_singleton]
    tauto

theorem runRemoves_ok (env : UpdateGroupsEnv) (username : String)
    (h : ∀ g, env.removeResult g = .ok ()) (gs : List Int) :
    runRemoves env username gs = (none, gs.map (DirCall.removeUserFromGroup username)) := by
  induction gs with
  | nil => rfl
  | cons g rest ih => simp [runRemoves, h g, ih]

theorem runAdds_ok (env : UpdateGroupsEnv) (username : String)
    (h : ∀ g, env.addResult g = .ok ()) (gs : List Int) :
    runAdds env username gs = (none, gs.map (DirCall.addUserToGroup username)) := by
  induction gs with
  | nil => rfl
  | cons g rest ih => simp [runAdds, h g, ih]

theorem update_user_groups_ok (env : UpdateGroupsEnv) (user : DirUser)
    (needed_groups : List String) (all_groups : List DirGroup)
    (hg : env.getGroups = .ok all_groups)
    (hr : ∀ g, env.removeResult g = .ok ())
    (ha : ∀ g, env.addResult g = .ok ()) :
    update_user_groups env user needed_groups =
      (none,
        DirCall.getGroups ::
          (((user.groups.map fun group => group.id).filter fun group =>
              !((resolve_groups all_groups needed_groups).contains group)).map
            (DirCall.removeUserFromGroup user.id) ++
          ((resolve_groups all_groups needed_groups).filter fun group =>
              !((user.groups.map fun group => group.id).contains group)).map
            (DirCall.addUserToGroup user.id))) := by
  simp [update_user_groups, hg, runRemoves_ok env user.id hr, runAdds_ok env user.id ha]

theorem mem_update_user_groups_trace (env : UpdateGroupsEnv) (user : DirUser)
    (needed_groups : List String) (all_groups : List DirGroup)
    (hg : env.getGroups = .ok all_groups)
    (hr : ∀ g, env.removeResult g = .ok ())
    (ha : ∀ g, env.addResult g = .ok ()) (x : Int) :
    x ∈ applyDirCalls user.id (user.groups.map fun group => group.id)
        (update_user_groups env user needed_groups).2 ↔
      x ∈ resolve_groups all_groups needed_groups := by
  rw [update_user_groups_ok env user needed_groups all_groups hg hr ha]
  simp only [applyDirCalls, applyDirCalls_append, mem_applyDirCalls_removes,
    mem_applyDirCalls_adds, List.mem_filter, Bool.not_eq_eq_eq_not, Bool.not_true,
    List.elem_eq_mem, decide_eq_false_iff_not, decide_eq_true_eq]
  by_cases hc : x ∈ user.groups.map fun group => group.id <;>
    by_cases hn : x ∈ resolve_groups all_groups needed_groups <;> tauto

theorem find?_display_name_of_nodup (all_groups : List DirGroup) (g : DirGroup)
    (hnodup : (all_groups.map fun group => group.display_name).Nodup)
    (hg : g ∈ all_groups) :
    all_groups.find? (fun group => group.display_name == g.display_name) = some g := by
  induction all_groups with
  | nil => cases hg
  | cons h t ih =>
    rw [List.map_cons, List.nodup_cons] at hnodup
    rcases List.mem_cons.mp hg with rfl | hgt
    · exact List.find?_cons_of_pos _ (by simp)
    · have hne : (h.display_name == g.display_name) = false := by
        simp only [beq_eq_false_iff_ne, ne_eq]
        intro heq
        exact hnodup.1 (heq ▸ List.mem_map.mpr ⟨g, hgt, rfl⟩)
      rw [List.find?_cons_of_neg _ (by simp [hne]), ih hnodup.2 hgt]

theorem mem_resolve_groups_iff (all_groups : List DirGroup) (needed_groups : List String)
    (hnodup : (all_groups.map fun group => group.display_name).Nodup) (x : Int) :
    x ∈ resolve_groups all_groups needed_groups ↔
      ∃ g ∈ all_groups, g.id = x ∧ g.display_name ∈ needed_groups := by
  simp only [resolve_groups, List.mem_filterMap, Option.map_eq_some']
  constructor
  · rintro ⟨n, hn, g, hfind, rfl⟩
    have hmem := List.mem_of_find?_eq_some hfind
    have hp := List.find?_some hfind
    rw [beq_iff_eq] at hp
    exact ⟨g, hmem, rfl, hp ▸ hn⟩
  · rintro ⟨g, hmem, rfl, hname⟩
    exact ⟨g.display_name, hname, g, find?_display_name_of_nodup all_groups g hnodup hmem, rfl⟩

theorem resolve_groups_drops_unknown (all_groups : List DirGroup)
    (needed_groups : List String) :
    resolve_groups all_groups needed_groups =
      resolve_groups all_groups
        (needed_groups.filter fun n => all_groups.any fun group => group.display_name == n) := by
  induction needed_groups with
  | nil => rfl
  | cons n rest ih =>
    cases hfind : all_groups.find? fun group => group.display_name == n with
    | none =>
      have hany : (all_groups.any fun group => group.display_name == n) = false := by
        rw [List.any_eq_false]
        intro g hg
        have := List.find?_eq_none.mp hfind g hg
        simpa using this
      simp [resolve_groups, List.filterMap_cons, List.filter_cons, hfind, hany] at ih ⊢
      exact ih
    | some g =>
      have hany : (all_groups.any fun group => group.display_name == n) = true := by
        rw [List.any_eq_true]
        exact ⟨g, List.mem_of_find?_eq_some hfind, by simpa using List.find?_some hfind⟩
      simp [resolve_groups, List.filterMap_cons, List.filter_cons, hfind, hany] at ih ⊢
      exact ih

/-- An owner reference, passed through untouched by the code under
verification (contents abstracted to a tag). -/
structure OwnerReference where
  tag : String
deriving DecidableEq, Repr

/-- The slice of `kube::api::ObjectMeta` the code writes. -/
structure ObjectMeta where
  owner_references : Option (List OwnerReference)
deriving DecidableEq, Repr

/-- The slice of `k8s_openapi::api::core::v1::Secret` the code writes:
`string_data` is modelled as an association list (the source uses a
`BTreeMap`, whose iteration order is by key; only lookups matter here). -/
structure K8sSecret where
  metadata : ObjectMeta
  string_data : Option (List (String × String))
deriving DecidableEq, Repr

/-- The configuration record of the external `passwords` crate's
`PasswordGenerator`, with the builder defaults documented by that crate
(length 8; numbers and lowercase letters on; everything else off). -/
structure PasswordGenerator where
  length : Nat
  numbers : Bool
  lowercase_letters : Bool
  uppercase_letters : Bool
  symbols : Bool
  spaces : Bool
  exclude_similar_characters : Bool
  strict : Bool
deriving DecidableEq, Repr

/-- `PasswordGenerator::new()` of the `passwords` crate. -/
def PasswordGenerator.new : PasswordGenerator where
  length := 8
  numbers := true
  lowercase_letters := true
  uppercase_letters := false
  symbols := false
  spaces := false
  exclude_similar_characters := false
  strict := false

/-- Builder `.length(n)` (named `setLength` because the field is `length`). -/
def PasswordGenerator.setLength (pg : PasswordGenerator) (n : Nat) : PasswordGenerator :=
  { pg with length := n }

/-- Builder `.uppercase_letters(b)`. -/
def PasswordGenerator.setUppercaseLetters (pg : PasswordGenerator) (b : Bool) :
    PasswordGenerator :=
  { pg with uppercase_letters := b }

/-- Builder `.strict(b)`. -/
def PasswordGenerator.setStrict (pg : PasswordGenerator) (b : Bool) : PasswordGenerator :=
  { pg with strict := b }

/-- Modelled from the spec (§4.C): the external `passwords` crate's
`generate_one`, which fails when no character class is enabled or when a
strict generator is shorter than its class count, and otherwise produces a
password of the configured length in which, in strict mode, every enabled
class is represented.  One canonical such password is produced per
configuration. -/
def PasswordGenerator.generate_one (pg : PasswordGenerator) : Option String :=
  let classes :=
    (if pg.numbers then ['1'] else []) ++
    (if pg.lowercase_letters then ['a'] else []) ++
    (if pg.uppercase_letters then ['A'] else []) ++
    (if pg.symbols then ['!'] else []) ++
    (if pg.spaces then [' '] else [])
  if classes.isEmpty then none
  else if pg.strict && decide (pg.length < classes.length) then none
  else some (String.mk (classes.take pg.length ++
    List.replicate (pg.length - classes.length) (classes.headD 'a')))

/-- The generator configured in `new_secret`
(`src/resources/service_user.rs` lines 53-56):
`PasswordGenerator::new().length(32).uppercase_letters(true).strict(true)`. -/
def svcPg : PasswordGenerator :=
  ((PasswordGenerator.new.setLength 32).setUppercaseLetters true).setStrict true

/-- `new_secret` from `src/resources/service_user.rs` lines 52-73: an
unpersisted secret carrying the owner reference whose `string_data` maps
`"username"` to the login and `"password"` to a freshly generated
password.  (`BTreeMap` iterates keys in order, hence `"password"` first;
the source's `.expect` on `generate_one` cannot fire for `svcPg`, see
`svcPg_generate_one_some`.) -/
def new_secret (username : String) (oref : OwnerReference) : K8sSecret where
  metadata := { owner_references := some [oref] }
  string_data := some [("password", svcPg.generate_one.getD ""), ("username", username)]

theorem svcPg_generate_one_some : ∃ pw, svcPg.generate_one = some pw := ⟨_, rfl⟩

/-- `format_username` from `src/resources/service_user.rs` lines 75-77. -/
def format_username (name : String) (namespace' : String) : String :=
  name ++ "." ++ namespace'

/-- UTF-8 validity of a byte sequence, as enforced by Rust's
`str::from_utf8` (continuation ranges, no overlong encodings, no
surrogates, maximum U+10FFFF). -/
def isUtf8Cont (b : Nat) : Bool := 0x80 ≤ b && b ≤ 0xBF

def validUtf8 : List Nat → Bool
  | [] => true
  | b1 :: rest =>
    if b1 ≤ 0x7F then validUtf8 rest
    else if 0xC2 ≤ b1 && b1 ≤ 0xDF then
      match rest with
      | b2 :: rest2 => isUtf8Cont b2 && validUtf8 rest2
      | [] => false
    else if b1 == 0xE0 then
      match rest with
      | b2 :: b3 :: rest3 => (0xA0 ≤ b2 && b2 ≤ 0xBF) && isUtf8Cont b3 && validUtf8 rest3
      | _ => false
    else if (0xE1 ≤ b1 && b1 ≤ 0xEC) || b1 == 0xEE || b1 == 0xEF then
      match rest with
      | b2 :: b3 :: rest3 => isUtf8Cont b2 && isUtf8Cont b3 && validUtf8 rest3
      | _ => false
    else if b1 == 0xED then
      match rest with
      | b2 :: b3 :: rest3 => (0x80 ≤ b2 && b2 ≤ 0x9F) && isUtf8Cont b3 && validUtf8 rest3
      | _ => false
    else if b1 == 0xF0 then
      match rest with
      | b2 :: b3 :: b4 :: rest4 =>
        (0x90 ≤ b2 && b2 ≤ 0xBF) && isUtf8Cont b3 && isUtf8Cont b4 && validUtf8 rest4
      | _ => false
    else if 0xF1 ≤ b1 && b1 ≤ 0xF3 then
      match rest with
      | b2 :: b3 :: b4 :: rest4 =>
        isUtf8Cont b2 && isUtf8Cont b3 && isUtf8Cont b4 && validUtf8 rest4
      | _ => false
    else if b1 == 0xF4 then
      match rest with
      | b2 :: b3 :: b4 :: rest4 =>
        (0x80 ≤ b2 && b2 ≤ 0x8F) && isUtf8Cont b3 && isUtf8Cont b4 && validUtf8 rest4
      | _ => false
    else false

/-- The committed secret as returned by the apiserver after `commit`
(`secret.get()` in the source): `data` holds base64-decoded byte values. -/
structure CommittedSecret where
  data : Option (List (String × List Nat))
deriving DecidableEq, Repr

/-- The password read of `src/resources/service_user.rs` lines 174-175:
`secret.get().data.as_ref().unwrap().get("password").unwrap()` then
`from_utf8(&password.0).unwrap()` — three panicking unwraps. -/
def read_password (secret : CommittedSecret) : PanicOr (List Nat) :=
  match secret.data with
  | none => .panicked "Option unwrap on None: secret has no data"
  | some d =>
    match d.lookup "password" with
    | none => .panicked "Option unwrap on None: no password key"
    | some bytes =>
      if validUtf8 bytes then .ok bytes else .panicked "Result unwrap on Err: invalid UTF-8"

/-- Event kinds published through `context.rs`. -/
inductive EventRec where
  | secretCreated (secretName : String)
  | userCreated (username : String)
  | userDeleted (username : String)
  | userNotFound (username : String)
  | groupCreated (name : String)
  | groupDeleted (name : String)
deriving DecidableEq, Repr

/-- `kube::runtime::events::EventType`. -/
inductive EventType where
  | normal
  | warning
deriving DecidableEq, Repr

/-- The event type each publisher in `src/context.rs` uses: `UserNotFound`
is a warning (line 152), everything else is normal. -/
def eventTypeOf : EventRec → EventType
  | .userNotFound _ => .warning
  | _ => .normal

/-- `kube::runtime::controller::Action` (requeue seconds / await change).
Named `KAction` because Mathlib already declares `Action`. -/
inductive KAction where
  | requeue (secs : Nat)
  | awaitChange
deriving DecidableEq, Repr

/-- `resources::Error` from `src/resources/mod.rs` lines 20-32.  Kube and
commit error payloads are abstracted to message strings; the `finalizer`
variant is not reachable from the embedded paths. -/
inductive RecError where
  | commit (msg : String)
  | kube (msg : String)
  | lldap (e : LldapError)
  | missingObjectKey (key : String)
deriving DecidableEq, Repr

/-- Outcome of a reconcile or cleanup: a Rust panic, an `Err`, or an `Ok`
action. -/
inductive Outcome (ε α : Type) where
  | panicked (msg : String)
  | err (e : ε)
  | ok (a : α)
deriving DecidableEq, Repr

/-- `ServiceUserSpec` from `src/resources/service_user.rs` lines 39-44. -/
structure ServiceUserSpec where
  password_manager : Bool
  additional_groups : List String
deriving DecidableEq, Repr

/-- A `ServiceUser` object as the reconciler reads it: the optional
apiserver-populated metadata fields and the spec.  `oref` is the
(optional) result of `controller_owner_ref`, whose absence panics via
`.expect` in the source; `namespace'` renders `metadata.namespace`. -/
structure ServiceUser where
  name : Option String
  namespace' : Option String
  oref : Option OwnerReference
  spec : ServiceUserSpec
deriving DecidableEq, Repr

/-- The desired group list from `src/resources/service_user.rs` lines
162-170: `spec.additional_groups` with the role group pushed at the end —
`lldap_password_manager` when `password_manager`, else
`lldap_strict_readonly`. -/
def desiredGroups (spec : ServiceUserSpec) : List String :=
  spec.additional_groups ++
    [if spec.password_manager then "lldap_password_manager" else "lldap_strict_readonly"]

/-- Results of the external calls of the ServiceUser apply path
(`src/resources/service_user.rs` lines 81-188), in program order.
`entry` is the `secrets.entry(..)` lookup (`Ok true` = the secret already
existed, `Ok false` = vacant, so `new_secret` fills it); `committed` is
the secret held by the entry after a successful `commit` (the apiserver's
returned object, with `data` populated server-side). -/
structure ApplyEnv where
  entry : Except String Bool
  commit : Except String Unit
  committed : CommittedSecret
  publishSecretCreated : Except String Unit
  buildClient : Except LldapError Unit
  getUser : Except LldapError DirUser
  createUser : Except LldapError DirUser
  publishUserCreated : Except String Unit
  getGroups : Except LldapError (List DirGroup)
  removeResult : Int → Except LldapError Unit
  addResult : Int → Except LldapError Unit
  updatePassword : Except LldapError Unit
  patchStatus : Except String Unit

/-- Result of the ServiceUser apply path: outcome, events successfully
published, directory calls made, and the secret built by `new_secret`
when the entry was vacant. -/
structure ApplyResult where
  outcome : Outcome RecError KAction
  events : List EventRec
  calls : List DirCall
  insertedSecret : Option K8sSecret
deriving DecidableEq, Repr

/-- The tail of the ServiceUser apply path from the point where a user
record is in hand (`src/resources/service_user.rs` lines 161-188):
update groups via `update_user_groups` with the desired list, read the
password out of the committed secret (panicking unwraps), update the
directory password, patch the status, and requeue after 3600 s. -/
def afterUser (su : ServiceUser) (env : ApplyEnv) (username : String)
    (events : List EventRec) (calls : List DirCall) (inserted : Option K8sSecret)
    (user : DirUser) : ApplyResult :=
  match update_user_groups ⟨env.getGroups, env.removeResult, env.addResult⟩ user
      (desiredGroups su.spec) with
  | (some e, gcalls) => ⟨.err (.lldap e), events, calls ++ gcalls, inserted⟩
  | (none, gcalls) =>
    match read_password env.committed with
    | .panicked msg => ⟨.panicked msg, events, calls ++ gcalls, inserted⟩
    | .ok _pw =>
      match env.updatePassword with
      | .error e =>
        ⟨.err (.lldap e), events, calls ++ gcalls ++ [.updatePassword username], inserted⟩
      | .ok _ =>
        match env.patchStatus with
        | .error e =>
          ⟨.err (.kube e), events, calls ++ gcalls ++ [.updatePassword username], inserted⟩
        | .ok _ =>
          ⟨.ok (.requeue 3600), events, calls ++ gcalls ++ [.updatePassword username], inserted⟩

/-- The ServiceUser apply path, `Reconcile::reconcile` from
`src/resources/service_user.rs` lines 81-188: extract metadata (failing
with `MissingObjectKey`), get-or-create and commit the secret, publish
`SecretCreated` when it was created (after the commit; `?` propagates a
publish failure), build the directory client, get-or-create the directory
user (branching on the literal `Entity not found` message and publishing
`UserCreated` on creation), then continue in `afterUser`. -/
def serviceUserApply (su : ServiceUser) (env : ApplyEnv) : ApplyResult :=
  match su.name with
  | none => ⟨.err (.missingObjectKey ".metadata.name"), [], [], none⟩
  | some name =>
    match su.namespace' with
    | none => ⟨.err (.missingObjectKey ".metadata.namespace"), [], [], none⟩
    | some ns =>
      match su.oref with
      | none => ⟨.panicked "Field should populated by apiserver", [], [], none⟩
      | some oref =>
        let secret_name := name ++ "-lldap-credentials"
        let username := format_username name ns
        match env.entry with
        | .error e => ⟨.err (.kube e), [], [], none⟩
        | .ok existed =>
          let created := !existed
          let inserted := if existed then none else some (new_secret username oref)
          match env.commit with
          | .error e => ⟨.err (.commit e), [], [], inserted⟩
          | .ok _ =>
            match (if created then env.publishSecretCreated else .ok ()) with
            | .error e => ⟨.err (.kube e), [], [], inserted⟩
            | .ok _ =>
              let events0 := if created then [EventRec.secretCreated secret_name] else []
              match env.buildClient with
              | .error e => ⟨.err (.lldap e), events0, [], inserted⟩
              | .ok _ =>
                match env.getUser with
                | .error (LldapError.graphQl gqlErr) =>
                  if gqlErr.message == "Entity not found: `" ++ username ++ "`" then
                    match env.createUser with
                    | .error e =>
                      ⟨.err (.lldap e), events0, [.getUser username, .createUser username],
                        inserted⟩
                    | .ok user =>
                      match env.publishUserCreated with
                      | .error e =>
                        ⟨.err (.kube e), events0, [.getUser username, .createUser username],
                          inserted⟩
                      | .ok _ =>
                        afterUser su env username (events0 ++ [.userCreated username])
                          [.getUser username, .createUser username] inserted user
                  else
                    ⟨.err (.lldap (.graphQl gqlErr)), events0, [.getUser username], inserted⟩
                | .error e => ⟨.err (.lldap e), events0, [.getUser username], inserted⟩
                | .ok user => afterUser su env username events0 [.getUser username] inserted user

/-- Results of the external calls of the ServiceUser cleanup path
(`src/resources/service_user.rs` lines 190-227). -/
structure CleanupEnv where
  buildClient : Except LldapError Unit
  deleteUser : Except LldapError Unit
  publishUserNotFound : Except String Unit
  publishUserDeleted : Except String Unit

/-- Result of a cleanup or a Group reconcile: outcome, events successfully
published, directory calls made. -/
structure StepResult where
  outcome : Outcome RecError KAction
  events : List EventRec
  calls : List DirCall
deriving DecidableEq, Repr

/-- The ServiceUser cleanup path, `Reconcile::cleanup` from
`src/resources/service_user.rs` lines 190-227: extract metadata, build
the client, delete the directory user — branching on the literal
`Entity not found: \`No such user: ...\`` message to publish the
`UserNotFound` warning and continue — publish `UserDeleted` on success,
propagate any other error, and return `await_change`. -/
def serviceUserCleanup (su : ServiceUser) (env : CleanupEnv) : StepResult :=
  match su.name with
  | none => ⟨.err (.missingObjectKey ".metadata.name"), [], []⟩
  | some name =>
    match su.namespace' with
    | none => ⟨.err (.missingObjectKey ".metadata.namespace"), [], []⟩
    | some ns =>
      let username := format_username name ns
      match env.buildClient with
      | .error e => ⟨.err (.lldap e), [], []⟩
      | .ok _ =>
        match env.deleteUser with
        | .error (LldapError.graphQl gqlErr) =>
          if gqlErr.message == "Entity not found: `No such user: '" ++ username ++ "'`" then
            match env.publishUserNotFound with
            | .error e => ⟨.err (.kube e), [], [.deleteUser username]⟩
            | .ok _ => ⟨.ok .awaitChange, [.userNotFound username], [.deleteUser username]⟩
          else ⟨.err (.lldap (.graphQl gqlErr)), [], [.deleteUser username]⟩
        | .error e => ⟨.err (.lldap e), [], [.deleteUser username]⟩
        | .ok _ =>
          match env.publishUserDeleted with
          | .error e => ⟨.err (.kube e), [], [.deleteUser username]⟩
          | .ok _ => ⟨.ok .awaitChange, [.userDeleted username], [.deleteUser username]⟩

/-- A `Group` object as the reconciler reads it (`src/resources/group.rs`):
only `metadata.name` is consulted. -/
structure GroupRes where
  name : Option String
deriving DecidableEq, Repr

/-- Results of the external calls of the Group apply path
(`src/resources/group.rs` lines 23-48). -/
structure GroupApplyEnv where
  buildClient : Except LldapError Unit
  getGroups : Except LldapError (List DirGroup)
  createGroup : Except LldapError Unit
  publishGroupCreated : Except String Unit

/-- The Group apply path, `Reconcile::reconcile` from
`src/resources/group.rs` lines 23-48: read `metadata.name`, build the
client, list the groups; when no listed group's display name equals the
name, create the group and publish `GroupCreated`; requeue after 3600 s. -/
def groupApply (grp : GroupRes) (env : GroupApplyEnv) : StepResult :=
  match grp.name with
  | none => ⟨.err (.missingObjectKey ".metadata.name"), [], []⟩
  | some name =>
    match env.buildClient with
    | .error e => ⟨.err (.lldap e), [], []⟩
    | .ok _ =>
      match env.getGroups with
      | .error e => ⟨.err (.lldap e), [], [.getGroups]⟩
      | .ok groups =>
        if !(groups.any fun group => group.display_name == name) then
          match env.createGroup with
          | .error e => ⟨.err (.lldap e), [], [.getGroups, .createGroup name]⟩
          | .ok _ =>
            match env.publishGroupCreated with
            | .error e => ⟨.err (.kube e), [], [.getGroups, .createGroup name]⟩
            | .ok _ =>
              ⟨.ok (.requeue 3600), [.groupCreated name], [.getGroups, .createGroup name]⟩
        else ⟨.ok (.requeue 3600), [], [.getGroups]⟩

/-- Modelled from the spec (§4.G): the directory effect of
`create_group(name)` — the listing afterwards contains one more group,
with a directory-assigned id and the requested display name.  The
`LldapClient::create_group` method itself is not among the sources under
`src/` (only its caller in `src/resources/group.rs` is). -/
def createGroupEffect (groups : List DirGroup) (freshId : Int) (name : String) :
    List DirGroup :=
  groups ++ [⟨freshId, name⟩]

/-- Results of the external calls of the Group cleanup path
(`src/resources/group.rs` lines 50-75).  As with `create_group`, the
`LldapClient::delete_group` method is absent from the sources under
`src/`; its result is passed in like every other external call. -/
structure GroupCleanupEnv where
  buildClient : Except LldapError Unit
  getGroups : Except LldapError (List DirGroup)
  deleteGroup : Except LldapError Unit
  publishGroupDeleted : Except String Unit

/-- The Group cleanup path, `Reconcile::cleanup` from
`src/resources/group.rs` lines 50-75: read `metadata.name`, build the
client, list the groups; when a listed group's display name equals the
name, delete it by id and publish `GroupDeleted` (`?` propagates a
publish failure); either way return `await_change`. -/
def groupCleanup (grp : GroupRes) (env : GroupCleanupEnv) : StepResult :=
  match grp.name with
  | none => ⟨.err (.missingObjectKey ".metadata.name"), [], []⟩
  | some name =>
    match env.buildClient with
    | .error e => ⟨.err (.lldap e), [], []⟩
    | .ok _ =>
      match env.getGroups with
      | .error e => ⟨.err (.lldap e), [], [.getGroups]⟩
      | .ok groups =>
        match groups.find? fun group => group.display_name == name with
        | some group =>
          match env.deleteGroup with
          | .error e => ⟨.err (.lldap e), [], [.getGroups, .deleteGroup group.id]⟩
          | .ok _ =>
            match env.publishGroupDeleted with
            | .error e => ⟨.err (.kube e), [], [.getGroups, .deleteGroup group.id]⟩
            | .ok _ =>
              ⟨.ok .awaitChange, [.groupDeleted name], [.getGroups, .deleteGroup group.id]⟩
        | none => ⟨.ok .awaitChange, [], [.getGroups]⟩

/-- C10: for every GraphQL response, `check_graphql_errors` returns an
error built from the first entry of the `errors` array whenever that
array is present and non-empty, and otherwise returns the response's
`data`; in the no-error case with absent data it panics instead of
returning an error. -/
theorem c10_check_graphql_errors {α : Type} (response : GraphQlResponse α) :
    (∀ e es, response.errors = some (e :: es) →
      check_graphql_errors response = .ok (.error (.graphQl e))) ∧
    ((response.errors = none ∨ response.errors = some []) →
      (∀ d, response.data = some d → check_graphql_errors response = .ok (.ok d)) ∧
      (response.data = none →
        check_graphql_errors response =
          .panicked "Data should be valid if there are no error")) := by
  obtain ⟨d, errs⟩ := response
  constructor
  · rintro e es rfl
    rfl
  · rintro (rfl | rfl) <;>
      exact ⟨fun d h => by subst h; rfl, fun h => by subst h; rfl⟩

/-- Witness for C10 at a concrete response with a non-empty error array. -/
theorem c10_check_graphql_errors_witness :
    check_graphql_errors (⟨none, some [⟨"boom"⟩]⟩ : GraphQlResponse Nat) =
      .ok (.error (.graphQl ⟨"boom"⟩)) :=
  (c10_check_graphql_errors ⟨none, some [⟨"boom"⟩]⟩).1 ⟨"boom"⟩ [] rfl

/-- C6: `new_secret(login, ownerReference)` returns an unpersisted secret
whose string data maps `"username"` to the login and `"password"` to a
password of length 32 from a generator with length 32, uppercase letters
enabled and strict mode on (so digits, lowercase and uppercase — the
enabled classes — are each represented), and whose metadata carries the
given owner reference. -/
theorem c6_new_secret (username : String) (oref : OwnerReference) :
    (new_secret username oref).metadata.owner_references = some [oref] ∧
    ((new_secret username oref).string_data.getD []).lookup "username" = some username ∧
    ∃ pw, ((new_secret username oref).string_data.getD []).lookup "password" = some pw ∧
      pw.length = 32 ∧ pw.toList.any Char.isUpper = true ∧
      pw.toList.any Char.isDigit = true ∧ pw.toList.any Char.isLower = true ∧
      svcPg.length = 32 ∧ svcPg.uppercase_letters = true ∧ svcPg.strict = true := by
  refine ⟨rfl, ?_, svcPg.generate_one.getD "", ?_, by decide, by decide, by decide, by decide,
    rfl, rfl, rfl⟩
  · simp [new_secret, List.lookup]
  · simp [new_secret, List.lookup]

/-- C3: with every directory call succeeding, `update_user_groups` resolves
the desired display names against the listed groups (dropping names with
no matching display name, see the second conjunct), then issues exactly
one `removeUserFromGroup` per current id not in the resolved desired set
followed by exactly one `addUserToGroup` per resolved desired id not in
the current set, and no other mutation. -/
theorem c3_update_user_groups_calls (env : UpdateGroupsEnv) (user : DirUser)
    (needed_groups : List String) (all_groups : List DirGroup)
    (hg : env.getGroups = .ok all_groups)
    (hr : ∀ g, env.removeResult g = .ok ())
    (ha : ∀ g, env.addResult g = .ok ()) :
    update_user_groups env user needed_groups =
      (none,
        DirCall.getGroups ::
          (((user.groups.map fun group => group.id).filter fun group =>
              !((resolve_groups all_groups needed_groups).contains group)).map
            (DirCall.removeUserFromGroup user.id) ++
          ((resolve_groups all_groups needed_groups).filter fun group =>
              !((user.groups.map fun group => group.id).contains group)).map
            (DirCall.addUserToGroup user.id))) ∧
    resolve_groups all_groups needed_groups =
      resolve_groups all_groups
        (needed_groups.filter fun n => all_groups.any fun group => group.display_name == n) :=
  ⟨update_user_groups_ok env user needed_groups all_groups hg hr ha,
    resolve_groups_drops_unknown all_groups needed_groups⟩

/-- Witness for C3: a user currently in group 2 with desired names
`["a", "zz"]` where only `"a"` exists (as id 1): one removal of 2, one
addition of 1, and the unknown name `"zz"` is dropped. -/
theorem c3_update_user_groups_calls_witness :
    update_user_groups ⟨.ok [⟨1, "a"⟩], fun _ => .ok (), fun _ => .ok ()⟩
        ⟨"u", [⟨2, "b"⟩]⟩ ["a", "zz"] =
      (none, [DirCall.getGroups, .removeUserFromGroup "u" 2, .addUserToGroup "u" 1]) := by
  have h := c3_update_user_groups_calls ⟨.ok [⟨1, "a"⟩], fun _ => .ok (), fun _ => .ok ()⟩
    ⟨"u", [⟨2, "b"⟩]⟩ ["a", "zz"] [⟨1, "a"⟩] rfl (fun _ => rfl) (fun _ => rfl)
  exact h.1.trans (by decide)

/-- C9: with every directory call succeeding, `update_user_groups` issues
all removals before any addition, and after the removal phase the user's
membership is exactly the intersection of the current and the resolved
desired group sets. -/
theorem c9_removes_before_adds (env : UpdateGroupsEnv) (user : DirUser)
    (needed_groups : List String) (all_groups : List DirGroup)
    (hg : env.getGroups = .ok all_groups)
    (hr : ∀ g, env.removeResult g = .ok ())
    (ha : ∀ g, env.addResult g = .ok ()) :
    ∃ rs as,
      (update_user_groups env user needed_groups).2 = DirCall.getGroups :: (rs ++ as) ∧
      (∀ c ∈ rs, ∃ g, c = DirCall.removeUserFromGroup user.id g) ∧
      (∀ c ∈ as, ∃ g, c = DirCall.addUserToGroup user.id g) ∧
      (∀ x : Int,
        x ∈ applyDirCalls user.id (user.groups.map fun group => group.id)
            (DirCall.getGroups :: rs) ↔
          x ∈ (user.groups.map fun group => group.id) ∧
            x ∈ resolve_groups all_groups needed_groups) := by
  refine ⟨((user.groups.map fun group => group.id).filter fun group =>
      !((resolve_groups all_groups needed_groups).contains group)).map
      (DirCall.removeUserFromGroup user.id),
    ((resolve_groups all_groups needed_groups).filter fun group =>
      !((user.groups.map fun group => group.id).contains group)).map
      (DirCall.addUserToGroup user.id), ?_, ?_, ?_, ?_⟩
  · rw [update_user_groups_ok env user needed_groups all_groups hg hr ha]
  · intro c hc
    obtain ⟨g, _, rfl⟩ := List.mem_map.mp hc
    exact ⟨g, rfl⟩
  · intro c hc
    obtain ⟨g, _, rfl⟩ := List.mem_map.mp hc
    exact ⟨g, rfl⟩
  · intro x
    simp only [applyDirCalls, mem_applyDirCalls_removes, List.mem_filter,
      Bool.not_eq_eq_eq_not, Bool.not_true, List.elem_eq_mem, decide_eq_false_iff_not]
    by_cases hn : x ∈ resolve_groups all_groups needed_groups <;> tauto

/-- Witness for C9 at the same concrete input as C3's witness: the trace is
`getGroups`, the removal of 2, then the addition of 1, and after the
removal phase the membership is empty (= current ∩ desired). -/
theorem c9_removes_before_adds_witness :
    ∃ rs as,
      (update_user_groups ⟨.ok [⟨1, "a"⟩], fun _ => .ok (), fun _ => .ok ()⟩
          ⟨"u", [⟨2, "b"⟩]⟩ ["a", "zz"]).2 = DirCall.getGroups :: (rs ++ as) ∧
      (∀ c ∈ rs, ∃ g, c = DirCall.removeUserFromGroup "u" g) ∧
      (∀ c ∈ as, ∃ g, c = DirCall.addUserToGroup "u" g) ∧
      (∀ x : Int,
        x ∈ applyDirCalls "u" [2] (DirCall.getGroups :: rs) ↔ x ∈ ([2] : List Int) ∧
          x ∈ resolve_groups [⟨1, "a"⟩] ["a", "zz"]) :=
  c9_removes_before_adds ⟨.ok [⟨1, "a"⟩], fun _ => .ok (), fun _ => .ok ()⟩
    ⟨"u", [⟨2, "b"⟩]⟩ ["a", "zz"] [⟨1, "a"⟩] rfl (fun _ => rfl) (fun _ => rfl)

/-- C5: in the ServiceUser cleanup path, a `deleteUser` GraphQl failure
with the literal message ``Entity not found: `No such user: '<login>'` ``
publishes the `UserNotFound` warning event and cleanup still succeeds
with await-change; a delete success publishes `UserDeleted` and returns
await-change; any other error is propagated as the cleanup's error. -/
theorem c5_cleanup_delete_user (name ns : String) (oref : Option OwnerReference)
    (spec : ServiceUserSpec) (env : CleanupEnv)
    (hclient : env.buildClient = .ok ()) :
    (env.deleteUser = .error (.graphQl
        ⟨"Entity not found: `No such user: '" ++ format_username name ns ++ "'`"⟩) →
      env.publishUserNotFound = .ok () →
      serviceUserCleanup ⟨some name, some ns, oref, spec⟩ env =
        ⟨.ok .awaitChange, [.userNotFound (format_username name ns)],
          [.deleteUser (format_username name ns)]⟩ ∧
      eventTypeOf (.userNotFound (format_username name ns)) = .warning) ∧
    (env.deleteUser = .ok () → env.publishUserDeleted = .ok () →
      serviceUserCleanup ⟨some name, some ns, oref, spec⟩ env =
        ⟨.ok .awaitChange, [.userDeleted (format_username name ns)],
          [.deleteUser (format_username name ns)]⟩) ∧
    (∀ e, env.deleteUser = .error e →
      (∀ m : GraphQlError, e = .graphQl m →
        m.message ≠ "Entity not found: `No such user: '" ++ format_username name ns ++ "'`") →
      (serviceUserCleanup ⟨some name, some ns, oref, spec⟩ env).outcome = .err (.lldap e)) := by
  refine ⟨?_, ?_, ?_⟩
  · intro hdel hpub
    refine ⟨?_, rfl⟩
    simp [serviceUserCleanup, hclient, hdel, hpub]
  · intro hdel hpub
    simp [serviceUserCleanup, hclient, hdel, hpub]
  · intro e hdel hne
    cases e with
    | graphQl m =>
      have : (m.message ==
          "Entity not found: `No such user: '" ++ format_username name ns ++ "'`") = false :=
        beq_eq_false_iff_ne.mpr (hne m rfl)
      simp [serviceUserCleanup, hclient, hdel, this]
    | cynic msg => simp [serviceUserCleanup, hclient, hdel]
    | reqwest msg => simp [serviceUserCleanup, hclient, hdel]
    | authentication msg => simp [serviceUserCleanup, hclient, hdel]

/-- Witness for C5 at a concrete ServiceUser `gitea/apps` whose directory
user is already gone: the `UserNotFound` branch. -/
theorem c5_cleanup_delete_user_witness :
    serviceUserCleanup ⟨some "gitea", some "apps", none, ⟨false, []⟩⟩
        ⟨.ok (), .error (.graphQl ⟨"Entity not found: `No such user: 'gitea.apps'`"⟩),
          .ok (), .ok ()⟩ =
      ⟨.ok .awaitChange, [.userNotFound "gitea.apps"], [.deleteUser "gitea.apps"]⟩ ∧
    eventTypeOf (.userNotFound "gitea.apps") = .warning :=
  (c5_cleanup_delete_user "gitea" "apps" none ⟨false, []⟩
      ⟨.ok (), .error (.graphQl ⟨"Entity not found: `No such user: 'gitea.apps'`"⟩),
        .ok (), .ok ()⟩ rfl).1 rfl rfl

/-- C7: the Group apply path lists the directory groups and calls
`createGroup(name)` and publishes `GroupCreated` iff no listed group's
display name equals `metadata.name`; otherwise it performs no directory
mutation and publishes nothing; both branches requeue after 3600 s; and
after the create effect a back-to-back second reconcile takes the no-op
branch. -/
theorem c7_group_apply (name : String) (env env2 : GroupApplyEnv)
    (gs gs2 : List DirGroup) (freshId : Int)
    (hclient : env.buildClient = .ok ()) (hclient2 : env2.buildClient = .ok ()) :
    (env.getGroups = .ok gs → (gs.any fun group => group.display_name == name) = false →
      env.createGroup = .ok () → env.publishGroupCreated = .ok () →
      groupApply ⟨some name⟩ env =
        ⟨.ok (.requeue 3600), [.groupCreated name], [.getGroups, .createGroup name]⟩) ∧
    (env.getGroups = .ok gs → (gs.any fun group => group.display_name == name) = true →
      groupApply ⟨some name⟩ env = ⟨.ok (.requeue 3600), [], [.getGroups]⟩) ∧
    (env2.getGroups = .ok (createGroupEffect gs2 freshId name) →
      groupApply ⟨some name⟩ env2 = ⟨.ok (.requeue 3600), [], [.getGroups]⟩) := by
  refine ⟨?_, ?_, ?_⟩
  · intro hg hany hc hp
    simp [groupApply, hclient, hg, hany, hc, hp]
  · intro hg hany
    simp [groupApply, hclient, hg, hany]
  · intro hg
    have hany : ((createGroupEffect gs2 freshId name).any
        fun group => group.display_name == name) = true := by
      simp [createGroupEffect]
    simp [groupApply, hclient2, hg, hany]

/-- Witness for C7: a fresh `grafana-admins` Group against an empty
directory creates the group and emits `GroupCreated`, and the second
reconcile against the post-create listing is a no-op. -/
theorem c7_group_apply_witness :
    groupApply ⟨some "grafana-admins"⟩ ⟨.ok (), .ok [], .ok (), .ok ()⟩ =
      ⟨.ok (.requeue 3600), [.groupCreated "grafana-admins"],
        [.getGroups, .createGroup "grafana-admins"]⟩ ∧
    groupApply ⟨some "grafana-admins"⟩
        ⟨.ok (), .ok (createGroupEffect [] 7 "grafana-admins"), .ok (), .ok ()⟩ =
      ⟨.ok (.requeue 3600), [], [.getGroups]⟩ := by
  have h := c7_group_apply "grafana-admins" ⟨.ok (), .ok [], .ok (), .ok ()⟩
    ⟨.ok (), .ok (createGroupEffect [] 7 "grafana-admins"), .ok (), .ok ()⟩ [] [] 7 rfl rfl
  exact ⟨h.1 rfl (by decide) rfl rfl, h.2.2 rfl⟩

theorem applyDirCalls_getUser (username : String) (m : List Int) (s : String)
    (rest : List DirCall) :
    applyDirCalls username m (DirCall.getUser s :: rest) = applyDirCalls username m rest := rfl

theorem applyDirCalls_updatePassword (username : String) (m : List Int) (s : String)
    (rest : List DirCall) :
    applyDirCalls username m (DirCall.updatePassword s :: rest) =
      applyDirCalls username m rest := rfl

theorem mem_runRemoves_trace (env : UpdateGroupsEnv) (username : String) (gs : List Int) :
    ∀ c ∈ (runRemoves env username gs).2, ∃ g, c = DirCall.removeUserFromGroup username g := by
  induction gs with
  | nil => simp [runRemoves]
  | cons g rest ih =>
    intro c hc
    simp only [runRemoves] at hc
    cases hr : env.removeResult g with
    | error e =>
      rw [hr] at hc
      simp at hc
      exact ⟨g, hc⟩
    | ok _ =>
      rw [hr] at hc
      simp at hc
      rcases hc with rfl | hc
      · exact ⟨g, rfl⟩
      · exact ih c hc

theorem mem_runAdds_trace (env : UpdateGroupsEnv) (username : String) (gs : List Int) :
    ∀ c ∈ (runAdds env username gs).2, ∃ g, c = DirCall.addUserToGroup username g := by
  induction gs with
  | nil => simp [runAdds]
  | cons g rest ih =>
    intro c hc
    simp only [runAdds] at hc
    cases hr : env.addResult g with
    | error e =>
      rw [hr] at hc
      simp at hc
      exact ⟨g, hc⟩
    | ok _ =>
      rw [hr] at hc
      simp at hc
      rcases hc with rfl | hc
      · exact ⟨g, rfl⟩
      · exact ih c hc

theorem mem_update_user_groups_calls_shape (env : UpdateGroupsEnv) (user : DirUser)
    (needed_groups : List String) :
    ∀ c ∈ (update_user_groups env user needed_groups).2,
      c = DirCall.getGroups ∨ (∃ g, c = DirCall.removeUserFromGroup user.id g) ∨
        (∃ g, c = DirCall.addUserToGroup user.id g) := by
  intro c hc
  unfold update_user_groups at hc
  cases hg : env.getGroups with
  | error e =>
    rw [hg] at hc
    simp at hc
    exact Or.inl hc
  | ok all_groups =>
    rw [hg] at hc
    simp only at hc
    set rm := (user.groups.map fun group => group.id).filter fun group =>
      !((resolve_groups all_groups needed_groups).contains group) with hrm
    cases hr : (runRemoves env user.id rm).1 with
    | some e =>
      rw [hr] at hc
      simp at hc
      rcases hc with rfl | hc
      · exact Or.inl rfl
      · exact Or.inr (Or.inl (mem_runRemoves_trace env user.id rm c hc))
    | none =>
      rw [hr] at hc
      simp at hc
      rcases hc with rfl | hc | hc
      · exact Or.inl rfl
      · exact Or.inr (Or.inl (mem_runRemoves_trace env user.id rm c hc))
      · exact Or.inr (Or.inr (mem_runAdds_trace env user.id _ c hc))

theorem afterUser_events (su : ServiceUser) (env : ApplyEnv) (username : String)
    (evs : List EventRec) (cs : List DirCall) (ins : Option K8sSecret) (u : DirUser) :
    (afterUser su env username evs cs ins u).events = evs := by
  unfold afterUser
  split
  · rfl
  · split
    · rfl
    · split
      · rfl
      · split <;> rfl

theorem afterUser_calls (su : ServiceUser) (env : ApplyEnv) (username : String)
    (evs : List EventRec) (cs : List DirCall) (ins : Option K8sSecret) (u : DirUser) :
    ∃ tail, (afterUser su env username evs cs ins u).calls = cs ++ tail ∧
      ∀ c ∈ tail, c = DirCall.getGroups ∨ (∃ g, c = DirCall.removeUserFromGroup u.id g) ∨
        (∃ g, c = DirCall.addUserToGroup u.id g) ∨ c = DirCall.updatePassword username := by
  have hshape := mem_update_user_groups_calls_shape
    ⟨env.getGroups, env.removeResult, env.addResult⟩ u (desiredGroups su.spec)
  cases hupd : update_user_groups ⟨env.getGroups, env.removeResult, env.addResult⟩ u
      (desiredGroups su.spec) with
  | mk r gcalls =>
    rw [hupd] at hshape
    simp only at hshape
    unfold afterUser
    rw [hupd]
    cases r with
    | some e =>
      exact ⟨gcalls, rfl, fun c hc => by have := hshape c hc; tauto⟩
    | none =>
      cases read_password env.committed with
      | panicked msg =>
        exact ⟨gcalls, rfl, fun c hc => by have := hshape c hc; tauto⟩
      | ok pw =>
        have htail : ∀ c ∈ gcalls ++ [DirCall.updatePassword username],
            c = DirCall.getGroups ∨ (∃ g, c = DirCall.removeUserFromGroup u.id g) ∨
              (∃ g, c = DirCall.addUserToGroup u.id g) ∨
              c = DirCall.updatePassword username := by
          intro c hc
          rcases List.mem_append.mp hc with hc | hc
          · have := hshape c hc; tauto
          · simp at hc; tauto
        cases env.updatePassword with
        | error e => exact ⟨gcalls ++ [DirCall.updatePassword username], by simp, htail⟩
        | ok _ =>
          cases env.patchStatus with
          | error e => exact ⟨gcalls ++ [DirCall.updatePassword username], by simp, htail⟩
          | ok _ => exact ⟨gcalls ++ [DirCall.updatePassword username], by simp, htail⟩

/-- C4: in the ServiceUser apply path (secret step already succeeded, with
the secret pre-existing), a `getUser` GraphQl failure with the literal
message ``Entity not found: `<login>` `` makes the reconciler call
`createUser` and publish `UserCreated`, then continue with the created
user record; a `getUser` success continues with the fetched record, with
no `createUser` call and no event published; any other error aborts the
reconcile with that error. -/
theorem c4_get_or_create_user (name ns : String) (oref : OwnerReference)
    (spec : ServiceUserSpec) (env : ApplyEnv)
    (hentry : env.entry = .ok true) (hcommit : env.commit = .ok ())
    (hclient : env.buildClient = .ok ()) :
    (∀ u, env.getUser = .error (.graphQl
        ⟨"Entity not found: `" ++ format_username name ns ++ "`"⟩) →
      env.createUser = .ok u → env.publishUserCreated = .ok () →
      serviceUserApply ⟨some name, some ns, some oref, spec⟩ env =
        afterUser ⟨some name, some ns, some oref, spec⟩ env (format_username name ns)
          [.userCreated (format_username name ns)]
          [.getUser (format_username name ns), .createUser (format_username name ns)]
          none u) ∧
    (∀ u, env.getUser = .ok u →
      serviceUserApply ⟨some name, some ns, some oref, spec⟩ env =
        afterUser ⟨some name, some ns, some oref, spec⟩ env (format_username name ns)
          [] [.getUser (format_username name ns)] none u ∧
      (∀ s, DirCall.createUser s ∉
        (serviceUserApply ⟨some name, some ns, some oref, spec⟩ env).calls) ∧
      (serviceUserApply ⟨some name, some ns, some oref, spec⟩ env).events = []) ∧
    (∀ e, env.getUser = .error e →
      (∀ m : GraphQlError, e = .graphQl m →
        m.message ≠ "Entity not found: `" ++ format_username name ns ++ "`") →
      (serviceUserApply ⟨some name, some ns, some oref, spec⟩ env).outcome =
        .err (.lldap e)) := by
  refine ⟨?_, ?_, ?_⟩
  · intro u hget hcreate hpub
    simp [serviceUserApply, hentry, hcommit, hclient, hget, hcreate, hpub]
  · intro u hget
    have happly : serviceUserApply ⟨some name, some ns, some oref, spec⟩ env =
        afterUser ⟨some name, some ns, some oref, spec⟩ env (format_username name ns)
          [] [.getUser (format_username name ns)] none u := by
      simp [serviceUserApply, hentry, hcommit, hclient, hget]
    refine ⟨happly, ?_, ?_⟩
    · intro s hmem
      rw [happly] at hmem
      obtain ⟨tail, hcalls, htail⟩ := afterUser_calls ⟨some name, some ns, some oref, spec⟩
        env (format_username name ns) [] [.getUser (format_username name ns)] none u
      rw [hcalls] at hmem
      rcases List.mem_append.mp hmem with hmem | hmem
      · simp at hmem
      · rcases htail _ hmem with h | ⟨g, h⟩ | ⟨g, h⟩ | h <;> simp at h
    · rw [happly]
      exact afterUser_events _ _ _ _ _ _ _
  · intro e hget hne
    cases e with
    | graphQl m =>
      have hfalse :
          (m.message == "Entity not found: `" ++ format_username name ns ++ "`") = false :=
        beq_eq_false_iff_ne.mpr (hne m rfl)
      simp [serviceUserApply, hentry, hcommit, hclient, hget, hfalse]
    | cynic msg => simp [serviceUserApply, hentry, hcommit, hclient, hget]
    | reqwest msg => simp [serviceUserApply, hentry, hcommit, hclient, hget]
    | authentication msg => simp [serviceUserApply, hentry, hcommit, hclient, hget]

/-- Witness for C4: a concrete `gitea/apps` ServiceUser whose directory
user does not exist yet — `createUser` is called and `UserCreated`
published, and the pipeline continues with the created record. -/
theorem c4_get_or_create_user_witness :
    serviceUserApply ⟨some "gitea", some "apps", some ⟨"owner"⟩, ⟨false, []⟩⟩
        ⟨.ok true, .ok (), ⟨some [("password", [97])]⟩, .ok (), .ok (),
          .error (.graphQl ⟨"Entity not found: `gitea.apps`"⟩), .ok ⟨"gitea.apps", []⟩,
          .ok (), .ok [⟨1, "lldap_strict_readonly"⟩], fun _ => .ok (), fun _ => .ok (),
          .ok (), .ok ()⟩ =
      afterUser ⟨some "gitea", some "apps", some ⟨"owner"⟩, ⟨false, []⟩⟩
        ⟨.ok true, .ok (), ⟨some [("password", [97])]⟩, .ok (), .ok (),
          .error (.graphQl ⟨"Entity not found: `gitea.apps`"⟩), .ok ⟨"gitea.apps", []⟩,
          .ok (), .ok [⟨1, "lldap_strict_readonly"⟩], fun _ => .ok (), fun _ => .ok (),
          .ok (), .ok ()⟩ "gitea.apps" [.userCreated "gitea.apps"]
        [.getUser "gitea.apps", .createUser "gitea.apps"] none ⟨"gitea.apps", []⟩ :=
  (c4_get_or_create_user "gitea" "apps" ⟨"owner"⟩ ⟨false, []⟩
      ⟨.ok true, .ok (), ⟨some [("password", [97])]⟩, .ok (), .ok (),
        .error (.graphQl ⟨"Entity not found: `gitea.apps`"⟩), .ok ⟨"gitea.apps", []⟩,
        .ok (), .ok [⟨1, "lldap_strict_readonly"⟩], fun _ => .ok (), fun _ => .ok (),
        .ok (), .ok ()⟩ rfl rfl rfl).1 ⟨"gitea.apps", []⟩ rfl rfl rfl

/-- C1: in a fully successful ServiceUser apply, the desired group list is
`spec.additional_groups` plus exactly the role group
(`lldap_password_manager` iff `passwordManager`, else
`lldap_strict_readonly`), it is passed to the group-update operation, and
applying the reconcile's directory calls to the user's current membership
leaves exactly the ids of directory groups whose display name is in that
desired list (unknown names dropped); the reconcile returns
requeue-after-3600 s. -/
theorem c1_apply_group_membership (name ns : String) (oref : OwnerReference)
    (spec : ServiceUserSpec) (env : ApplyEnv) (user : DirUser)
    (all_groups : List DirGroup) (pw : List Nat)
    (hentry : env.entry = .ok true) (hcommit : env.commit = .ok ())
    (hclient : env.buildClient = .ok ()) (hget : env.getUser = .ok user)
    (hgroups : env.getGroups = .ok all_groups)
    (hr : ∀ g, env.removeResult g = .ok ()) (ha : ∀ g, env.addResult g = .ok ())
    (hread : read_password env.committed = .ok pw)
    (hupd : env.updatePassword = .ok ()) (hpatch : env.patchStatus = .ok ())
    (hnodup : (all_groups.map fun group => group.display_name).Nodup) :
    (serviceUserApply ⟨some name, some ns, some oref, spec⟩ env).outcome =
      .ok (.requeue 3600) ∧
    desiredGroups spec = spec.additional_groups ++
      [if spec.password_manager then "lldap_password_manager" else "lldap_strict_readonly"] ∧
    ∀ x : Int,
      x ∈ applyDirCalls user.id (user.groups.map fun group => group.id)
          (serviceUserApply ⟨some name, some ns, some oref, spec⟩ env).calls ↔
        ∃ g ∈ all_groups, g.id = x ∧ g.display_name ∈ desiredGroups spec := by
  have hupdate := update_user_groups_ok ⟨env.getGroups, env.removeResult, env.addResult⟩
    user (desiredGroups spec) all_groups hgroups hr ha
  have happly : serviceUserApply ⟨some name, some ns, some oref, spec⟩ env =
      afterUser ⟨some name, some ns, some oref, spec⟩ env (format_username name ns)
        [] [.getUser (format_username name ns)] none user := by
    simp [serviceUserApply, hentry, hcommit, hclient, hget]
  have hafter : afterUser ⟨some name, some ns, some oref, spec⟩ env
      (format_username name ns) [] [.getUser (format_username name ns)] none user =
      ⟨.ok (.requeue 3600), [],
        DirCall.getUser (format_username name ns) ::
          ((update_user_groups ⟨env.getGroups, env.removeResult, env.addResult⟩ user
            (desiredGroups spec)).2 ++ [DirCall.updatePassword (format_username name ns)]),
        none⟩ := by
    unfold afterUser
    rw [hupdate]
    simp [hread, hupd, hpatch]
  refine ⟨by rw [happly, hafter], rfl, ?_⟩
  intro x
  rw [happly, hafter]
  show x ∈ applyDirCalls user.id (user.groups.map fun group => group.id)
      (DirCall.getUser (format_username name ns) ::
        ((update_user_groups ⟨env.getGroups, env.removeResult, env.addResult⟩ user
          (desiredGroups spec)).2 ++
          [DirCall.updatePassword (format_username name ns)])) ↔ _
  rw [applyDirCalls_getUser, applyDirCalls_append, applyDirCalls_updatePassword]
  show x ∈ applyDirCalls user.id (applyDirCalls user.id
      (user.groups.map fun group => group.id)
      (update_user_groups ⟨env.getGroups, env.removeResult, env.addResult⟩ user
        (desiredGroups spec)).2) [] ↔ _
  rw [show ∀ m : List Int, applyDirCalls user.id m [] = m from fun _ => rfl]
  exact (mem_update_user_groups_trace ⟨env.getGroups, env.removeResult, env.addResult⟩
      user (desiredGroups spec) all_groups hgroups hr ha x).trans
    (mem_resolve_groups_iff all_groups (desiredGroups spec) hnodup x)

/-- Witness for C1: `gitea/apps` with `additionalGroups=["grafana-admins"]`
and `passwordManager=false` against a directory whose groups are
`lldap_strict_readonly` (id 1) and `grafana-admins` (id 3), the user
currently in a group id 2. -/
theorem c1_apply_group_membership_witness :
    (serviceUserApply ⟨some "gitea", some "apps", some ⟨"owner"⟩, ⟨false, ["grafana-admins"]⟩⟩
        ⟨.ok true, .ok (), ⟨some [("password", [97])]⟩, .ok (), .ok (),
          .ok ⟨"gitea.apps", [⟨2, "old"⟩]⟩, .ok ⟨"gitea.apps", []⟩, .ok (),
          .ok [⟨1, "lldap_strict_readonly"⟩, ⟨3, "grafana-admins"⟩],
          fun _ => .ok (), fun _ => .ok (), .ok (), .ok ()⟩).outcome =
      .ok (.requeue 3600) ∧
    desiredGroups ⟨false, ["grafana-admins"]⟩ = ["grafana-admins"] ++
      [if false then "lldap_password_manager" else "lldap_strict_readonly"] ∧
    ∀ x : Int,
      x ∈ applyDirCalls "gitea.apps" [2]
          (serviceUserApply
            ⟨some "gitea", some "apps", some ⟨"owner"⟩, ⟨false, ["grafana-admins"]⟩⟩
            ⟨.ok true, .ok (), ⟨some [("password", [97])]⟩, .ok (), .ok (),
              .ok ⟨"gitea.apps", [⟨2, "old"⟩]⟩, .ok ⟨"gitea.apps", []⟩, .ok (),
              .ok [⟨1, "lldap_strict_readonly"⟩, ⟨3, "grafana-admins"⟩],
              fun _ => .ok (), fun _ => .ok (), .ok (), .ok ()⟩).calls ↔
        ∃ g ∈ [(⟨1, "lldap_strict_readonly"⟩ : DirGroup), ⟨3, "grafana-admins"⟩],
          g.id = x ∧ g.display_name ∈ desiredGroups ⟨false, ["grafana-admins"]⟩ :=
  c1_apply_group_membership "gitea" "apps" ⟨"owner"⟩ ⟨false, ["grafana-admins"]⟩
    ⟨.ok true, .ok (), ⟨some [("password", [97])]⟩, .ok (), .ok (),
      .ok ⟨"gitea.apps", [⟨2, "old"⟩]⟩, .ok ⟨"gitea.apps", []⟩, .ok (),
      .ok [⟨1, "lldap_strict_readonly"⟩, ⟨3, "grafana-admins"⟩],
      fun _ => .ok (), fun _ => .ok (), .ok (), .ok ()⟩
    ⟨"gitea.apps", [⟨2, "old"⟩]⟩ [⟨1, "lldap_strict_readonly"⟩, ⟨3, "grafana-admins"⟩]
    [97] rfl rfl rfl rfl rfl (fun _ => rfl) (fun _ => rfl) rfl rfl rfl (by decide)

/-- C8: after the secret commit, the password is read with unchecked
unwraps — if the committed secret has no data map, no `"password"` key,
or a password value that is not valid UTF-8, the reconcile panics instead
of returning an error from the error taxonomy. -/
theorem c8_password_read_panics (name ns : String) (oref : OwnerReference)
    (spec : ServiceUserSpec) (env : ApplyEnv) (user : DirUser)
    (all_groups : List DirGroup)
    (hentry : env.entry = .ok true) (hcommit : env.commit = .ok ())
    (hclient : env.buildClient = .ok ()) (hget : env.getUser = .ok user)
    (hgroups : env.getGroups = .ok all_groups)
    (hr : ∀ g, env.removeResult g = .ok ()) (ha : ∀ g, env.addResult g = .ok ())
    (hbad : env.committed.data = none ∨
      (∃ d, env.committed.data = some d ∧ d.lookup "password" = none) ∨
      (∃ d bs, env.committed.data = some d ∧ d.lookup "password" = some bs ∧
        validUtf8 bs = false)) :
    ∃ msg,
      (serviceUserApply ⟨some name, some ns, some oref, spec⟩ env).outcome =
        .panicked msg ∧
      ∀ e, (serviceUserApply ⟨some name, some ns, some oref, spec⟩ env).outcome ≠
        .err e := by
  have hread : ∃ msg, read_password env.committed = .panicked msg := by
    rcases hbad with hd | ⟨d, hd, hlook⟩ | ⟨d, bs, hd, hlook, hvalid⟩
    · exact ⟨"Option unwrap on None: secret has no data", by rw [read_password, hd]⟩
    · exact ⟨"Option unwrap on None: no password key", by rw [read_password, hd]; simp [hlook]⟩
    · exact ⟨"Result unwrap on Err: invalid UTF-8",
        by rw [read_password, hd]; simp [hlook, hvalid]⟩
  obtain ⟨msg, hmsg⟩ := hread
  have hupdate := update_user_groups_ok ⟨env.getGroups, env.removeResult, env.addResult⟩
    user (desiredGroups spec) all_groups hgroups hr ha
  have happly : serviceUserApply ⟨some name, some ns, some oref, spec⟩ env =
      afterUser ⟨some name, some ns, some oref, spec⟩ env (format_username name ns)
        [] [.getUser (format_username name ns)] none user := by
    simp [serviceUserApply, hentry, hcommit, hclient, hget]
  have hafter : (afterUser ⟨some name, some ns, some oref, spec⟩ env
      (format_username name ns) [] [.getUser (format_username name ns)]
      none user).outcome = .panicked msg := by
    unfold afterUser
    rw [hupdate]
    simp [hmsg]
  refine ⟨msg, by rw [happly]; exact hafter, ?_⟩
  intro e
  rw [happly, hafter]
  exact fun h => Outcome.noConfusion h

/-- Witness for C8: a committed secret with no data map makes the apply
path panic. -/
theorem c8_password_read_panics_witness :
    ∃ msg,
      (serviceUserApply ⟨some "gitea", some "apps", some ⟨"owner"⟩, ⟨false, []⟩⟩
          ⟨.ok true, .ok (), ⟨none⟩, .ok (), .ok (), .ok ⟨"gitea.apps", []⟩,
            .ok ⟨"gitea.apps", []⟩, .ok (), .ok [⟨1, "lldap_strict_readonly"⟩],
            fun _ => .ok (), fun _ => .ok (), .ok (), .ok ()⟩).outcome =
        .panicked msg ∧
      ∀ e, (serviceUserApply ⟨some "gitea", some "apps", some ⟨"owner"⟩, ⟨false, []⟩⟩
          ⟨.ok true, .ok (), ⟨none⟩, .ok (), .ok (), .ok ⟨"gitea.apps", []⟩,
            .ok ⟨"gitea.apps", []⟩, .ok (), .ok [⟨1, "lldap_strict_readonly"⟩],
            fun _ => .ok (), fun _ => .ok (), .ok (), .ok ()⟩).outcome ≠ .err e :=
  c8_password_read_panics "gitea" "apps" ⟨"owner"⟩ ⟨false, []⟩
    ⟨.ok true, .ok (), ⟨none⟩, .ok (), .ok (), .ok ⟨"gitea.apps", []⟩,
      .ok ⟨"gitea.apps", []⟩, .ok (), .ok [⟨1, "lldap_strict_readonly"⟩],
      fun _ => .ok (), fun _ => .ok (), .ok (), .ok ()⟩
    ⟨"gitea.apps", []⟩ [⟨1, "lldap_strict_readonly"⟩] rfl rfl rfl rfl rfl
    (fun _ => rfl) (fun _ => rfl) (Or.inl rfl)

/-- Counterexample to C2 as stated: with a fresh secret (`SecretCreated`
pending) and a failing event publish, the apply path returns a Kube error
— not the same result as when the publish succeeds, so an emit failure
does fail the reconcile. -/
theorem c2_event_failure_counterexample :
    (serviceUserApply ⟨some "gitea", some "apps", some ⟨"owner"⟩, ⟨false, []⟩⟩
        ⟨.ok false, .ok (), ⟨some [("password", [97])]⟩, .error "boom", .ok (),
          .ok ⟨"gitea.apps", []⟩, .ok ⟨"gitea.apps", []⟩, .ok (),
          .ok [⟨1, "lldap_strict_readonly"⟩], fun _ => .ok (), fun _ => .ok (),
          .ok (), .ok ()⟩).outcome = .err (.kube "boom") ∧
    (serviceUserApply ⟨some "gitea", some "apps", some ⟨"owner"⟩, ⟨false, []⟩⟩
        ⟨.ok false, .ok (), ⟨some [("password", [97])]⟩, .ok (), .ok (),
          .ok ⟨"gitea.apps", []⟩, .ok ⟨"gitea.apps", []⟩, .ok (),
          .ok [⟨1, "lldap_strict_readonly"⟩], fun _ => .ok (), fun _ => .ok (),
          .ok (), .ok ()⟩).outcome = .ok (.requeue 3600) ∧
    (Outcome.err (RecError.kube "boom") : Outcome RecError KAction) ≠
      .ok (.requeue 3600) := by
  refine ⟨rfl, ?_, by decide⟩
  decide

/-- C2 amended: a failure to publish any of the six event kinds is
propagated by `?` as the operation's Kube error and fails the reconcile
or cleanup; no event is recorded.  The six conjuncts cover, in order, the
`SecretCreated` and `UserCreated` publishes of the ServiceUser apply
path, the `UserNotFound` and `UserDeleted` publishes of the ServiceUser
cleanup path, the `GroupCreated` publish of the Group apply path, and
the `GroupDeleted` publish of the Group cleanup path. -/
theorem c2_amended_event_failure_propagates :
    (∀ (name ns : String) (oref : OwnerReference) (spec : ServiceUserSpec)
      (env : ApplyEnv) (e : String),
      env.entry = .ok false → env.commit = .ok () →
      env.publishSecretCreated = .error e →
      (serviceUserApply ⟨some name, some ns, some oref, spec⟩ env).outcome =
        .err (.kube e) ∧
      (serviceUserApply ⟨some name, some ns, some oref, spec⟩ env).events = []) ∧
    (∀ (name ns : String) (oref : OwnerReference) (spec : ServiceUserSpec)
      (env : ApplyEnv) (u : DirUser) (e : String),
      env.entry = .ok true → env.commit = .ok () → env.buildClient = .ok () →
      env.getUser = .error (.graphQl
        ⟨"Entity not found: `" ++ format_username name ns ++ "`"⟩) →
      env.createUser = .ok u → env.publishUserCreated = .error e →
      (serviceUserApply ⟨some name, some ns, some oref, spec⟩ env).outcome =
        .err (.kube e) ∧
      (serviceUserApply ⟨some name, some ns, some oref, spec⟩ env).events = []) ∧
    (∀ (name ns : String) (oref : Option OwnerReference) (spec : ServiceUserSpec)
      (env : CleanupEnv) (e : String),
      env.buildClient = .ok () →
      env.deleteUser = .error (.graphQl
        ⟨"Entity not found: `No such user: '" ++ format_username name ns ++ "'`"⟩) →
      env.publishUserNotFound = .error e →
      (serviceUserCleanup ⟨some name, some ns, oref, spec⟩ env).outcome =
        .err (.kube e) ∧
      (serviceUserCleanup ⟨some name, some ns, oref, spec⟩ env).events = []) ∧
    (∀ (name ns : String) (oref : Option OwnerReference) (spec : ServiceUserSpec)
      (env : CleanupEnv) (e : String),
      env.buildClient = .ok () → env.deleteUser = .ok () →
      env.publishUserDeleted = .error e →
      (serviceUserCleanup ⟨some name, some ns, oref, spec⟩ env).outcome =
        .err (.kube e) ∧
      (serviceUserCleanup ⟨some name, some ns, oref, spec⟩ env).events = []) ∧
    (∀ (genv : GroupApplyEnv) (gname : String) (gs : List DirGroup) (e : String),
      genv.buildClient = .ok () → genv.getGroups = .ok gs →
      (gs.any fun group => group.display_name == gname) = false →
      genv.createGroup = .ok () → genv.publishGroupCreated = .error e →
      (groupApply ⟨some gname⟩ genv).outcome = .err (.kube e) ∧
      (groupApply ⟨some gname⟩ genv).events = []) ∧
    (∀ (genv : GroupCleanupEnv) (gname : String) (gs : List DirGroup)
      (grp : DirGroup) (e : String),
      genv.buildClient = .ok () → genv.getGroups = .ok gs →
      (gs.find? fun group => group.display_name == gname) = some grp →
      genv.deleteGroup = .ok () → genv.publishGroupDeleted = .error e →
      (groupCleanup ⟨some gname⟩ genv).outcome = .err (.kube e) ∧
      (groupCleanup ⟨some gname⟩ genv).events = []) := by
  refine ⟨?_, ?_, ?_, ?_, ?_, ?_⟩
  · intro name ns oref spec env e hentry hcommit hpub
    constructor <;> simp [serviceUserApply, hentry, hcommit, hpub]
  · intro name ns oref spec env u e hentry hcommit hclient hget hcreate hpub
    constructor <;> simp [serviceUserApply, hentry, hcommit, hclient, hget, hcreate, hpub]
  · intro name ns oref spec env e hclient hdel hpub
    constructor <;> simp [serviceUserCleanup, hclient, hdel, hpub]
  · intro name ns oref spec env e hclient hdel hpub
    constructor <;> simp [serviceUserCleanup, hclient, hdel, hpub]
  · intro genv gname gs e hclient hg hany hc hp
    constructor <;> simp [groupApply, hclient, hg, hany, hc, hp]
  · intro genv gname gs grp e hclient hg hfind hdel hpub
    constructor <;> simp [groupCleanup, hclient, hg, hfind, hdel, hpub]

/-- Witness for the amended C2: the `SecretCreated` publish-failure site
(first conjunct) at a concrete fresh `gitea/apps` ServiceUser. -/
theorem c2_amended_event_failure_propagates_witness :
    (serviceUserApply ⟨some "gitea", some "apps", some ⟨"owner"⟩, ⟨false, []⟩⟩
        ⟨.ok false, .ok (), ⟨some [("password", [97])]⟩, .error "boom", .ok (),
          .ok ⟨"gitea.apps", []⟩, .ok ⟨"gitea.apps", []⟩, .ok (),
          .ok [⟨1, "lldap_strict_readonly"⟩], fun _ => .ok (), fun _ => .ok (),
          .ok (), .ok ()⟩).outcome = .err (.kube "boom") :=
  (c2_amended_event_failure_propagates.1 "gitea" "apps" ⟨"owner"⟩ ⟨false, []⟩
    ⟨.ok false, .ok (), ⟨some [("password", [97])]⟩, .error "boom", .ok (),
      .ok ⟨"gitea.apps", []⟩, .ok ⟨"gitea.apps", []⟩, .ok (),
      .ok [⟨1, "lldap_strict_readonly"⟩], fun _ => .ok (), fun _ => .ok (),
      .ok (), .ok ()⟩ "boom" rfl rfl rfl).1
